import Mathlib

/-!
Verification development for the MoviePilot plugin collection
(Lkwang88 / CloudStrmCompanionLkwang88 strm-pointer sync engine,
mediaserverrefresh / mediaserverrefresh88 refresh debouncers,
wd99 webhook aggregator).

Python code is shallowly embedded: strings as Lean `String`/`List Char`,
the on-disk file tree as an association list path ↦ content, `set`s as
duplicate-free lists, dicts as association lists with replace-or-append insertion,
wall-clock time as `Nat` seconds, and `threading.Timer` as an absolute
fire instant.  Each definition carries a note naming the Python
function it is translated from.
-/

namespace MPPlugins

/-! ## String primitives (Python `str.replace`, `in`, `count`) -/

/-- Replace every non-overlapping occurrence of the nonempty pattern
`q :: qs` in a character list, scanning left to right — the semantics of
Python `str.replace` (with unlimited count) for a nonempty pattern. -/
def replaceAllL (q : Char) (qs rep : List Char) : List Char → List Char
  | [] => []
  | c :: s =>
    if (q :: qs).isPrefixOf (c :: s) then
      rep ++ replaceAllL q qs rep (s.drop qs.length)
    else
      c :: replaceAllL q qs rep s
termination_by s => s.length
decreasing_by
  · simp only [List.length_drop, List.length_cons]; omega
  · simp only [List.length_cons]; omega

/-- Python `s.replace(pat, rep)`.  Every pattern used in this code base is a
nonempty literal; for an empty pattern we return `s` unchanged. -/
def strReplace (s pat rep : String) : String :=
  match pat.data with
  | [] => s
  | q :: qs => ⟨replaceAllL q qs rep.data s.data⟩

/-- Python `pat in s` on character lists: some suffix of `s` starts with `pat`. -/
def containsSubL (pat : List Char) : List Char → Bool
  | [] => pat.isEmpty
  | c :: s => pat.isPrefixOf (c :: s) || containsSubL pat s

/-- Python `pat in s` for strings. -/
def containsSub (s pat : String) : Bool :=
  containsSubL pat.data s.data

/-- Python `s.count(pat)` for a nonempty pattern: number of
non-overlapping occurrences, scanning left to right. -/
def countSubL (q : Char) (qs : List Char) : List Char → Nat
  | [] => 0
  | c :: s =>
    if (q :: qs).isPrefixOf (c :: s) then
      countSubL q qs (s.drop qs.length) + 1
    else
      countSubL q qs s
termination_by s => s.length
decreasing_by
  · simp only [List.length_drop, List.length_cons]; omega
  · simp only [List.length_cons]; omega

/-- Python `s.count(pat)` for strings (patterns here are nonempty literals). -/
def countSub (s pat : String) : Nat :=
  match pat.data with
  | [] => 0
  | q :: qs => countSubL q qs s.data

/-- Python `s.split(sep)` for the single-character separators used in this
code base (`/`, `,`, `\n`, `#`, `$`, `@`, `|`, `:`). -/
def splitOnCharL (sep : Char) : List Char → List (List Char)
  | [] => [[]]
  | c :: s =>
    match splitOnCharL sep s with
    | [] => [[c]]
    | h :: t => if c = sep then [] :: h :: t else (c :: h) :: t

/-- `s.split(sep)` at the string level. -/
def strSplit (s : String) (sep : Char) : List String :=
  (splitOnCharL sep s.data).map (fun l => ⟨l⟩)

/-- Python `sep.join(xs)`. -/
def strIntercalate (sep : String) (xs : List String) : String :=
  ⟨List.intercalate sep.data (xs.map String.data)⟩

/-- ASCII lower-casing, the only case mapping these plugins exercise
(`str.lower` on extensions and event-type strings). -/
def lowerChar (c : Char) : Char :=
  if 'A' ≤ c && c ≤ 'Z' then Char.ofNat (c.toNat + 32) else c

/-- Python `s.lower()` (ASCII fragment). -/
def strLower (s : String) : String :=
  ⟨s.data.map lowerChar⟩

/-- The whitespace stripped by Python `str.strip()` (ASCII fragment). -/
def isSpaceChar (c : Char) : Bool :=
  c = ' ' || c = '\t' || c = '\n' || c = '\r'

/-- Python `s.strip()`. -/
def strTrim (s : String) : String :=
  ⟨((s.data.dropWhile isSpaceChar).reverse.dropWhile isSpaceChar).reverse⟩

/-- Python `s.startswith(pre)`. -/
def strStartsWith (s pre : String) : Bool :=
  pre.data.isPrefixOf s.data

/-- Python `s.endswith(suf)`. -/
def strEndsWith (s suf : String) : Bool :=
  suf.data.isSuffixOf s.data

/-! ## Path primitives (`pathlib.Path`, `os.path`) -/

/-- `str(pathlib.Path(p).parent)`: drop the last `/`-component; a bare name
has parent `"."`, a top-level absolute path has parent `"/"`. -/
def pathParent (p : String) : String :=
  match strSplit p '/' with
  | [] => "."
  | [_] => "."
  | comps =>
    let j := strIntercalate "/" comps.dropLast
    if j = "" then "/" else j

/-- `pathlib.Path(p).name`: the last `/`-component. -/
def pathName (p : String) : String :=
  (strSplit p '/').getLastD p

/-- `os.path.splitext(name)` on a bare file name: split at the last dot,
unless every character before that dot is itself a dot (leading-dot
files such as `.bashrc` keep their name whole). -/
def splitExt (name : String) : String × String :=
  match (name.data.reverse).span (· ≠ '.') with
  | (_, []) => (name, "")
  | (a, _ :: stemRev) =>
    if stemRev.any (· ≠ '.') then
      (⟨stemRev.reverse⟩, ⟨'.' :: a.reverse⟩)
    else
      (name, "")

/-- `pathlib.Path(p).stem` / `os.path.splitext(Path(p).name)[0]`. -/
def pathStem (p : String) : String :=
  (splitExt (pathName p)).1

/-- `pathlib.Path(p).suffix`: extension of the last component, dot included. -/
def pathSuffix (p : String) : String :=
  (splitExt (pathName p)).2

/-- `os.path.join(parent, name)` for a relative `name`. -/
def ospathJoin (parent name : String) : String :=
  if parent = "" then name
  else if strEndsWith parent "/" then parent ++ name
  else parent ++ "/" ++ name

/-- `pathlib.Path(p).parts` (module the rare `..`/`.` segments, absent from
this code base's configured paths): root marker plus nonempty segments. -/
def pathParts (p : String) : List String :=
  (if strStartsWith p "/" then ["/"] else []) ++ (strSplit p '/').filter (· ≠ "")

/-- `pathlib.Path(c).is_relative_to(pathlib.Path(d))`. -/
def isRelativeTo (c d : String) : Bool :=
  (pathParts d).isPrefixOf (pathParts c)

/-- `fnmatch`-style matching with `?` (one character) and `*` (any run),
the only metacharacters produced by the sidecar glob pattern. -/
def matchGlob : List Char → List Char → Bool
  | [], s => s.isEmpty
  | '*' :: pt, s =>
    matchGlob pt s ||
      (match s with
       | [] => false
       | _ :: st => matchGlob ('*' :: pt) st)
  | '?' :: pt, s =>
    (match s with
     | [] => false
     | _ :: st => matchGlob pt st)
  | c :: pt, s =>
    (match s with
     | [] => false
     | c' :: st => c = c' && matchGlob pt st)
termination_by pt s => (pt.length, s.length)

/-! ## Generic dict / filesystem models -/

/-- Python `dict` assignment `d[k] = v`: replace the value of the first
matching key in place, else append the new pair. -/
def dictInsert (d : List (String × String)) (k v : String) : List (String × String) :=
  match d with
  | [] => [(k, v)]
  | (k', v') :: tl => if k' = k then (k, v) :: tl else (k', v') :: dictInsert tl k v

/-- Python `d.get(k)`: value of the first matching key. -/
def dictGet (d : List (String × String)) (k : String) : Option String :=
  match d.find? (fun kv => kv.1 = k) with
  | some kv => some kv.2
  | none => none

/-- The on-disk tree, an association list `path ↦ file content`
(directories are implicit: `os.makedirs` has no observable effect here). -/
abbrev FS := List (String × String)

/-- `Path(p).exists()` for a file path. -/
def fsHas (fs : FS) (p : String) : Bool :=
  fs.any (fun kv => kv.1 = p)

/-- File content at `p`, if present. -/
def fsGet (fs : FS) (p : String) : Option String :=
  dictGet fs p

/-- `open(p, 'w').write(c)`: truncate-or-create. -/
def fsWrite (fs : FS) (p c : String) : FS :=
  dictInsert fs p c

/-! ## Lkwang88 / CloudStrmCompanionLkwang88 sync engine

Translated from `plugins.v2/Lkwang88/__init__.py` (the
CloudStrmCompanionLkwang88 variant is line-for-line identical in the
functions embedded here). -/

/-- The plugin configuration fields consumed by `__handle_file`,
`__create_strm_file`, `__handle_other_files` and `__format_content`.
`rmtMediaextSettings` stands for the host constant `settings.RMT_MEDIAEXT`. -/
structure StrmConf where
  cover : Bool
  uriencode : Bool
  pathReplacements : List (String × String)
  url : Option String
  notify : Bool
  refreshEmby : Bool
  mediaservers : Bool
  rmtMediaext : String
  copyFiles : Bool
  otherMediaext : Option String
  copySubtitles : Bool
  rmtMediaextSettings : List String
deriving Repr, DecidableEq

/-- Mutable plugin state touched while handling one file event: the file
tree, the generic task-push calls issued (`RequestUtils.post` with
`{"path": ..., "type": "add"}`), the strm paths fed to
`__collect_notify_info`, and the pending Emby refresh set (`_refresh_queue`,
a Python `set` of parent directories). -/
structure SyncState where
  fs : FS
  taskPush : List String
  notifyCollected : List String
  refreshQueue : List String
deriving Repr, DecidableEq

/-- `__format_content(format_str, local_file, cloud_file, uriencode)`:
substitute whichever of the two placeholders is present (percent-encoding
or backslash-normalizing the cloud path), `None` when neither occurs.
Percent-encoding (`urllib.parse.quote(s, safe='')`) is modelled below. -/
def utf8Bytes (c : Char) : List Nat :=
  let n := c.toNat
  if n < 0x80 then [n]
  else if n < 0x800 then [0xC0 + n / 64, 0x80 + n % 64]
  else if n < 0x10000 then [0xE0 + n / 4096, 0x80 + n / 64 % 64, 0x80 + n % 64]
  else [0xF0 + n / 262144, 0x80 + n / 4096 % 64, 0x80 + n / 64 % 64, 0x80 + n % 64]

/-- `urllib.parse.quote`'s always-safe byte set: ASCII letters, digits,
`_`, `.`, `-`, `~` (with `safe=''` nothing else is kept literal). -/
def quoteSafeByte (b : Nat) : Bool :=
  (65 ≤ b && b ≤ 90) || (97 ≤ b && b ≤ 122) || (48 ≤ b && b ≤ 57) ||
    b = 95 || b = 46 || b = 45 || b = 126

/-- Upper-case hexadecimal digit, as `urllib.parse.quote` emits. -/
def hexDigitU (n : Nat) : Char :=
  if n < 10 then Char.ofNat (48 + n) else Char.ofNat (55 + n)

/-- `urllib.parse.quote(s, safe='')`: UTF-8 encode, then percent-encode
every byte outside the always-safe set. -/
def urlQuote (s : String) : String :=
  ⟨s.data.flatMap fun c =>
    (utf8Bytes c).flatMap fun b =>
      if quoteSafeByte b then [Char.ofNat b] else ['%', hexDigitU (b / 16), hexDigitU (b % 16)]⟩

/-- `__format_content` (identical in both sync plugins). -/
def formatContent (format_str local_file cloud_file : String) (uriencode : Bool) : Option String :=
  if containsSub format_str "{local_file}" then
    some (strReplace format_str "{local_file}" local_file)
  else if containsSub format_str "{cloud_file}" then
    let cf := if uriencode then urlQuote cloud_file else strReplace cloud_file "\\" "/"
    some (strReplace format_str "{cloud_file}" cf)
  else
    none

/-- The `for source, target in self._path_replacements.items()` loop in
`__create_strm_file`: apply each configured literal replacement in order. -/
def applyPathReplacements (reps : List (String × String)) (content : String) : String :=
  reps.foldl
    (fun c st => if containsSub c st.1 then strReplace c st.1 st.2 else c)
    content

/-- `__create_strm_file(strm_file, strm_content)`, returning the Python
`True`/`False` result together with the updated state.  The final pointer
path replaces the extension of `strm_file` with `.strm`; if that file
already exists and overwrite (`_cover`) is off the call is a no-op
returning `False`.  A `None` content reaches a `TypeError` inside the
`try` (at the replacement loop, or, when no replacements are configured
and the placeholder-free template produced `None`, at `f.write`) which the
`except` turns into `False`; we model the no-write outcome. -/
def createStrmFile (cfg : StrmConf) (st : SyncState) (strm_file : String)
    (strm_content : Option String) : Bool × SyncState :=
  let strm_file_path := ospathJoin (pathParent strm_file) (pathStem (pathName strm_file) ++ ".strm")
  if fsHas st.fs strm_file_path && !cfg.cover then
    (false, st)
  else
    match strm_content with
    | none => (false, st)
    | some content0 =>
      let content := applyPathReplacements cfg.pathReplacements content0
      let st := { st with fs := fsWrite st.fs strm_file_path content }
      let st :=
        if cfg.url.isSome && decide (pathSuffix content ∈ cfg.rmtMediaextSettings) then
          { st with taskPush := st.taskPush ++ [content] }
        else st
      let st :=
        if cfg.notify && decide (pathSuffix content ∈ cfg.rmtMediaextSettings) then
          { st with notifyCollected := st.notifyCollected ++ [strm_file_path] }
        else st
      let st :=
        if cfg.refreshEmby && cfg.mediaservers then
          { st with refreshQueue := st.refreshQueue.insert (pathParent strm_file_path) }
        else st
      (true, st)

/-- `__handle_other_files(event_path, target_file)`: copy the file when its
extension is in the configured non-media set, and again when it is a
subtitle extension (`shutil.copy2`, unconditional overwrite). -/
def handleOtherFiles (cfg : StrmConf) (st : SyncState) (event_path target_file : String) : SyncState :=
  let st :=
    if cfg.copyFiles && cfg.otherMediaext.isSome &&
        decide (strLower (pathSuffix event_path) ∈
          (strSplit (cfg.otherMediaext.getD "") ',').map strTrim) then
      match fsGet st.fs event_path with
      | some c => { st with fs := fsWrite st.fs target_file c }
      | none => st
    else st
  if cfg.copySubtitles &&
      decide (strLower (pathSuffix event_path) ∈ [".srt", ".ass", ".ssa", ".sub"]) then
    match fsGet st.fs event_path with
    | some c => { st with fs := fsWrite st.fs target_file c }
    | none => st
  else st

/-- The rule lookup tables built by `init_plugin`
(`_strm_dir_conf`, `_cloud_dir_conf`, `_format_conf`, `_category_conf`). -/
structure RuleMaps where
  strmDirConf : List (String × String)
  cloudDirConf : List (String × String)
  formatConf : List (String × String)
  categoryConf : List (String × String)
deriving Repr, DecidableEq

/-- The sidecar pass run after a successful pointer creation in
`__handle_file`: glob the source directory for same-stem siblings
(with `[`/`]` in the stem degraded to `?`), route each through
`__handle_other_files`, then do the same for a `-thumb.jpg` twin. -/
def sidecarPass (cfg : StrmConf) (st : SyncState) (event_path mon_path strm_dir : String) : SyncState :=
  let pat := (strReplace (strReplace (pathStem event_path) "[" "?") "]" "?") ++ ".*"
  let parent := pathParent event_path
  let files := (st.fs.map Prod.fst).filter
    (fun p => pathParent p = parent && matchGlob pat.data (pathName p).data)
  let st := files.foldl
    (fun st file => handleOtherFiles cfg st file (strReplace file mon_path strm_dir)) st
  let thumb := ospathJoin parent (pathStem event_path ++ "-thumb.jpg")
  if fsHas st.fs thumb then
    handleOtherFiles cfg st thumb (strReplace thumb mon_path strm_dir)
  else st

/-- `__handle_file(event_path, mon_path)`: resolve the rule triple, compute
the target and cloud paths by **global** string replacement of `mon_path`
(Python `str.replace` replaces every occurrence), then either run the
pointer-write cascade (media extension) or route to the sidecar copier.
Missing rule entries raise a `TypeError` inside the `try` (replacing with
`None`), swallowed by the `except`: modelled as a no-op. -/
def handleFile (cfg : StrmConf) (maps : RuleMaps) (st : SyncState)
    (event_path mon_path : String) : SyncState :=
  if !fsHas st.fs event_path then st
  else
    match dictGet maps.cloudDirConf mon_path, dictGet maps.strmDirConf mon_path,
        dictGet maps.formatConf mon_path with
    | some cloud_dir, some strm_dir, some format_str =>
      let target_file := strReplace event_path mon_path strm_dir
      let cloud_file := strReplace event_path mon_path cloud_dir
      if decide (strLower (pathSuffix event_path) ∈
          (strSplit cfg.rmtMediaext ',').map strTrim) then
        let strm_content := formatContent format_str event_path cloud_file cfg.uriencode
        let res := createStrmFile cfg st target_file strm_content
        if res.1 then
          sidecarPass cfg res.2 event_path mon_path strm_dir
        else
          res.2
      else
        handleOtherFiles cfg st event_path target_file
    | _, _, _ => st

/-- `__add_to_refresh_queue(strm_file_path)`: add the parent directory to
the pending set `_refresh_queue` under `_refresh_lock`. -/
def addToRefreshQueue (queue : List String) (strm_file_path : String) : List String :=
  queue.insert (pathParent strm_file_path)

/-- `__process_refresh_queue()`: nothing to do on an empty set; otherwise
atomically take a list snapshot, clear the set (both under
`_refresh_lock` — the swap-and-clear is one critical section, modelled as
one step), and return the batch on which `__refresh_emby_file` is invoked
once per path.  A Python `set` is a duplicate-free unordered collection;
it is modelled as a duplicate-free list (`List.insert` adds only absent
elements) whose enumeration order stands in for the set's arbitrary
iteration order. -/
def processRefreshQueue (queue : List String) : List String × List String :=
  if queue = [] then ([], queue)
  else (queue, [])

/-- `__get_path(paths, file_path)`: first configured prefix match rewrites
the path (again by global `str.replace`); no match leaves it unchanged. -/
def getPathRewrite (paths : List (String × String)) (file_path : String) : String :=
  match paths.find? (fun kv => strStartsWith file_path kv.1) with
  | some kv => strReplace file_path kv.1 kv.2
  | none => file_path

/-- One iteration of the `for monitor_conf in monitor_confs` loop of
`init_plugin` (Lkwang88 lines 172–204): strip an optional `$monitor`
suffix, then an optional `@category` suffix, require exactly three `#`
separators, and store the rule into all four maps.  The
`Path(strm_dir).is_relative_to(Path(local_dir))` guard runs *after* the
insertions; its `continue` ends an already-finished loop body, so both
branches leave the freshly inserted rule in place. -/
def parseMonitorLine (maps : RuleMaps) (line : String) : RuleMaps :=
  if line = "" || strStartsWith line "#" then maps
  else
    let mc1 := if countSub line "$" = 1 then (strSplit line '$').headD "" else line
    let mc := if countSub mc1 "@" = 1 then (strSplit mc1 '@').headD "" else mc1
    let category := if countSub mc1 "@" = 1 then (strSplit mc1 '@').getD 1 "" else ""
    if countSub mc "#" = 3 then
      let parts := strSplit mc '#'
      let local_dir := parts.getD 0 ""
      let strm_dir := parts.getD 1 ""
      let cloud_dir := parts.getD 2 ""
      let format_str := parts.getD 3 ""
      let maps' : RuleMaps :=
        { strmDirConf := dictInsert maps.strmDirConf local_dir strm_dir
          cloudDirConf := dictInsert maps.cloudDirConf local_dir cloud_dir
          formatConf := dictInsert maps.formatConf local_dir format_str
          categoryConf := dictInsert maps.categoryConf local_dir category }
      if strm_dir ≠ "" && isRelativeTo strm_dir local_dir then
        maps'
      else
        maps'
    else
      maps

/-- The whole rule-parsing loop over the newline-split `_monitor_confs`. -/
def parseMonitorConfs (confs : String) : RuleMaps :=
  (strSplit confs '\n').foldl parseMonitorLine ⟨[], [], [], []⟩

/-! ## mediaserverrefresh / mediaserverrefresh88 debouncer

Translated from `plugins.v2/mediaserverrefresh/__init__.py` and
`plugins.v2/mediaserverrefresh88/__init__.py`.  A `threading.Timer`
started at instant `t` with delay `d` is modelled by its absolute fire
instant `t + d`; `_stop_timer` removes it. -/

/-- The `RefreshMediaItem` payload handed to the media servers. -/
structure RefreshMediaItem where
  title : String
  year : String
  mtype : String
  category : String
  targetPath : String
deriving Repr, DecidableEq

/-- Debouncer state: `_pending_items` plus the pending timer's absolute
fire instant (`none` when no timer is armed). -/
structure DebounceState where
  pending : List RefreshMediaItem
  timerAt : Option Nat
deriving Repr, DecidableEq

/-- The locked section of `refresh(event)` at arrival instant `t`:
append the item to `_pending_items`, `_stop_timer()` (cancel the previous
timer), and arm a fresh `threading.Timer(delay, _flush_queue)` — the new
timer fires `delay` after *this* arrival. -/
def refreshStep (delay : Nat) (st : DebounceState) (t : Nat) (item : RefreshMediaItem) :
    DebounceState :=
  { pending := st.pending ++ [item], timerAt := some (t + delay) }

/-- The armed timer fires at instant `t` (and only then does
`_flush_queue` run, absent any further `refresh` arrival). -/
def firesAt (st : DebounceState) (t : Nat) : Prop :=
  st.timerAt = some t

/-- mediaserverrefresh88 `_convert_path(local_path)`: first matching
configured prefix is replaced once (`str.replace(..., 1)` after a
`startswith` check, so exactly the leading prefix is rewritten). -/
def convertPath88 (mapping : List (String × String)) (p : String) : String :=
  match mapping.find? (fun kv => strStartsWith p kv.1) with
  | some kv => kv.2 ++ (p.drop kv.1.length)
  | none => p

/-- The locked drain of mediaserverrefresh88 `_flush_queue`: empty queue
is a no-op; otherwise `unique_paths = list(set(target paths))` is taken
and the pending list cleared, one `Library/Media/Updated` post going out
per unique path per server. -/
def flushQueue88 (pending : List RefreshMediaItem) : List String × List RefreshMediaItem :=
  if pending = [] then ([], pending)
  else ((pending.map (fun i => i.targetPath)).dedup, [])

/-! ## wd99 webhook aggregator

Translated from `plugins.v2/wd99/__init__.py`. -/

/-- The fields of the host's `WebhookEventInfo` consumed by the embedded
functions.  `hasJson` models `event_info.json_object` being a dict;
`jsonParentIndexNumber` / `jsonIndexNumber` are
`json_object["Item"]["ParentIndexNumber"/"IndexNumber"]` (numeric when
present), `jsonSeriesId` / `jsonSeriesName` the corresponding `Item`
fields, and `seasonIdNum` / `episodeIdNum` / `seriesId` the flat
attributes. -/
structure WEvent where
  event : String
  serverName : String
  itemId : String
  client : String
  userName : String
  itemType : String
  hasJson : Bool
  jsonParentIndexNumber : Option Int
  jsonIndexNumber : Option Int
  jsonSeriesId : Option String
  jsonSeriesName : Option String
  jsonServerName : Option String
  seasonIdNum : Option Int
  episodeIdNum : Option Int
  seriesId : Option String
deriving Repr, DecidableEq

/-- The wd99 configuration fields consumed by `send`. -/
structure WConfig where
  enabled : Bool
  mediaservers : List String
  types : List String
  aggregateEnabled : Bool
deriving Repr, DecidableEq

/-- The dedup cache `_webhook_msg_keys`, a dict key ↦ absolute expiry
instant (seconds). -/
abbrev KeyCache := List (String × Nat)

/-- `DEFAULT_EXPIRATION_TIME`. -/
def defaultExpirationTime : Nat := 600

/-- `_clean_expired_cache()`: drop every entry whose expiry instant is
`<=` the current time. -/
def cleanExpiredCache (now : Nat) (cache : KeyCache) : KeyCache :=
  cache.filter (fun kv => decide (now < kv.2))

/-- `_add_key_cache(key)`: `_webhook_msg_keys[key] = time.time() + 600`
(dict assignment: replace in place or append). -/
def addKeyCache (now : Nat) (cache : KeyCache) (key : String) : KeyCache :=
  match cache with
  | [] => [(key, now + defaultExpirationTime)]
  | (k, v) :: tl =>
    if k = key then (key, now + defaultExpirationTime) :: tl
    else (k, v) :: addKeyCache now tl key

/-- `_webhook_msg_keys.get(key)`-style lookup used to observe the cache. -/
def cacheLookup (cache : KeyCache) (k : String) : Option Nat :=
  match cache.find? (fun kv => kv.1 = k) with
  | some kv => some kv.2
  | none => none

/-- `_should_aggregate_tv(event_info)`. -/
def shouldAggregateTv (cfg : WConfig) (ev : WEvent) : Bool :=
  cfg.aggregateEnabled && ev.event = "library.new" && decide (ev.itemType ∈ ["TV", "SHOW"])

/-- `_get_series_id(event_info)`: json `Item.SeriesId or Item.SeriesName`
first, else the flat `series_id` attribute, `None` when all are falsy. -/
def getSeriesId (ev : WEvent) : Option String :=
  let fromJson :=
    if ev.hasJson then
      match ev.jsonSeriesId with
      | some v => if v ≠ "" then some v else none
      | none => none
    else none
  let fromJson :=
    match fromJson with
    | some v => some v
    | none =>
      if ev.hasJson then
        match ev.jsonSeriesName with
        | some v => if v ≠ "" then some v else none
        | none => none
      else none
  match fromJson with
  | some v => some v
  | none =>
    match ev.seriesId with
    | some sid => if sid ≠ "" then some sid else none
    | none => none

/-- The dedup key `f"{item_id}-{client}-{user_name}-{event_type}"`. -/
def dedupKey (ev : WEvent) : String :=
  ev.itemId ++ "-" ++ ev.client ++ "-" ++ ev.userName ++ "-" ++ ev.event

/-- Where `send` hands the event off (or why it drops it).  Dispatching a
notification happens only downstream of the three `route*` outcomes. -/
inductive SendOutcome where
  | droppedDisabled
  | droppedNoType
  | droppedNoServerConf
  | droppedServerNotSelected
  | droppedTypeNotSelected
  | droppedDupStop
  | routeTest
  | routeLogin
  | routeAggregate (seriesId : String)
  | routeSingle
deriving Repr, DecidableEq

/-- The decision pipeline of `send(event)` (wd99 lines 193–258), up to the
hand-off: enablement and payload guards, media-server allow-list (with the
`test` bypass), event-type allow-list over the pipe-split union, lazy
sweep of the dedup cache, duplicate-*stop* suppression (which refreshes
the cache entry and returns), then routing to the test / login /
aggregation / single-event handlers. -/
def send (cfg : WConfig) (ev : WEvent) (now : Nat) (cache : KeyCache) :
    SendOutcome × KeyCache :=
  if !cfg.enabled then (.droppedDisabled, cache)
  else if ev.event = "" then (.droppedNoType, cache)
  else if cfg.mediaservers = [] && !containsSub (strLower ev.event) "test" then
    (.droppedNoServerConf, cache)
  else if cfg.mediaservers ≠ [] && ev.serverName ≠ "" &&
      decide (ev.serverName ∉ cfg.mediaservers) then
    (.droppedServerNotSelected, cache)
  else
    let allowedTypes := cfg.types.flatMap (fun t => strSplit t '|')
    if !containsSub (strLower ev.event) "test" && decide (ev.event ∉ allowedTypes) then
      (.droppedTypeNotSelected, cache)
    else
      let key := dedupKey ev
      let cache1 := cleanExpiredCache now cache
      if containsSub (strLower ev.event) "stop" && cache1.any (fun kv => kv.1 = key) then
        (.droppedDupStop, addKeyCache now cache1 key)
      else if containsSub (strLower ev.event) "test" then (.routeTest, cache1)
      else if containsSub (strLower ev.event) "user.authentic" then (.routeLogin, cache1)
      else if shouldAggregateTv cfg ev then
        match getSeriesId ev with
        | some sid => (.routeAggregate sid, cache1)
        | none => (.routeSingle, cache1)
      else (.routeSingle, cache1)

/-- The statements of `_get_server_name_cn` *after* its first `return`:
read `json_object["Server"]["Name"]`, fall back to `server_name`, then to
`"Emby"`.  Kept as written in the source, where it is dead code. -/
def getServerNameCnDead (ev : WEvent) : String :=
  let server_name := if ev.hasJson then ev.jsonServerName.getD "" else ""
  if server_name = "" then
    (if ev.serverName ≠ "" then ev.serverName else "Emby")
  else server_name

/-- The first statement of `_get_server_name_cn`: an unconditional
`return "芙服"` (the hard-coded display name). -/
def getServerNameCnFirst (_ : WEvent) : Option String :=
  some "芙服"

/-- `_get_server_name_cn(event_info)`: run the body; if the first
statement returns, the trailing fallback block never executes. -/
def getServerNameCn (ev : WEvent) : String :=
  (getServerNameCnFirst ev).getD (getServerNameCnDead ev)

/-! ### `_merge_continuous_episodes` -/

/-- The numeric `(season, episode)` pair extracted from one buffered
event: json `Item.ParentIndexNumber` / `Item.IndexNumber` when the json
payload is present, else the flat `season_id` / `episode_id` attributes;
the event contributes only when both are present (the values are numeric
here, so the `int()` conversions in the source succeed). -/
def extractPair (ev : WEvent) : Option (Int × Int) :=
  let s := (if ev.hasJson then ev.jsonParentIndexNumber else none).orElse (fun _ => ev.seasonIdNum)
  let e := (if ev.hasJson then ev.jsonIndexNumber else none).orElse (fun _ => ev.episodeIdNum)
  match s, e with
  | some s, some e => some (s, e)
  | _, _ => none

/-- `season_episodes[s_int].append(int(e))` preceded by
`if s_int not in season_episodes: season_episodes[s_int] = []`: append the
episode to the first entry with that season, else append a new entry. -/
def insertEp (m : List (Int × List Int)) (s e : Int) : List (Int × List Int) :=
  match m with
  | [] => [(s, [e])]
  | (k, v) :: tl => if k = s then (k, v ++ [e]) :: tl else (k, v) :: insertEp tl s e

/-- `season_episodes[s]` (empty for an absent key — the merge loop only
looks up keys that are present). -/
def lookupEps : List (Int × List Int) → Int → List Int
  | [], _ => []
  | (k, v) :: tl, s => if k = s then v else lookupEps tl s

/-- The event-scanning loop of `_merge_continuous_episodes`: build the
`season_episodes` dict in arrival order. -/
def buildSeasonMap (ps : List (Int × Int)) : List (Int × List Int) :=
  ps.foldl (fun m p => insertEp m p.1 p.2) []

/-- `sorted(list(set(l)))` for integers. -/
def sortedDistinct (l : List Int) : List Int :=
  l.dedup.insertionSort (· ≤ ·)

/-- Python `str(n).zfill(w)`: left-pad the decimal rendering with zeros,
keeping a leading sign in front of the padding. -/
def zfillStr (s : String) (w : Nat) : String :=
  if w ≤ s.length then s
  else
    match s.data with
    | [] => ⟨List.replicate w '0'⟩
    | c :: tl =>
      if c = '-' || c = '+' then
        ⟨c :: (List.replicate (w - s.length) '0' ++ tl)⟩
      else
        ⟨List.replicate (w - s.length) '0' ++ s.data⟩

/-- `f"E{str(n).zfill(2)}"`. -/
def epStr (n : Int) : String :=
  "E" ++ zfillStr (toString n) 2

/-- The range rendering: `E<start>-E<end>` for a genuine run, bare
`E<start>` for a singleton. -/
def rangeStr (start stop : Int) : String :=
  if start ≠ stop then epStr start ++ "-" ++ epStr stop
  else epStr start

/-- The range-compression loop over the tail of the sorted episode list:
`start`/`stop` are the current run's bounds, each non-consecutive episode
flushes the run. -/
def rangesAux (start stop : Int) : List Int → List String
  | [] => [rangeStr start stop]
  | e :: tl =>
    if e = stop + 1 then rangesAux start e tl
    else rangeStr start stop :: rangesAux e e tl

/-- Ranges of a sorted episode list (`[]` for the impossible empty case,
guarded by `if not eps: continue` in the source). -/
def rangesOf : List Int → List String
  | [] => []
  | e :: tl => rangesAux e e tl

/-- One season's line: `f"S{str(s).zfill(2)} {' '.join(ranges)}"`. -/
def seasonLine (s : Int) (eps : List Int) : String :=
  "S" ++ zfillStr (toString s) 2 ++ " " ++ strIntercalate " " (rangesOf eps)

/-- `_merge_continuous_episodes(events)`: build the season dict, iterate
its keys in ascending order, deduplicate-and-sort each season's episodes,
compress consecutive runs and join with `", "`. -/
def mergeContinuousEpisodes (events : List WEvent) : String :=
  let ps := events.filterMap extractPair
  let m := buildSeasonMap ps
  let seasons := sortedDistinct (m.map Prod.fst)
  let lines := seasons.filterMap fun s =>
    let eps := sortedDistinct (lookupEps m s)
    if eps.isEmpty then none else some (seasonLine s eps)
  strIntercalate ", " lines

/-- A minimal `library.new` episode event, used for concrete checks of the
merge function. -/
def sampleEpisodeEvent (s e : Int) : WEvent :=
  { event := "library.new", serverName := "emby", itemId := "1", client := "c"
    userName := "u", itemType := "TV", hasJson := true
    jsonParentIndexNumber := some s, jsonIndexNumber := some e
    jsonSeriesId := some "77", jsonSeriesName := none, jsonServerName := none
    seasonIdNum := none, episodeIdNum := none, seriesId := none }

/-! ## Lemmas about the string primitives -/

theorem replaceAllL_cons_self (q : Char) (qs rep rest : List Char) :
    replaceAllL q qs rep (q :: (qs ++ rest)) = rep ++ replaceAllL q qs rep (rest) := by
  rw [replaceAllL]
  have hpre : (q :: qs).isPrefixOf (q :: (qs ++ rest)) = true := by
    simp [List.isPrefixOf_iff_prefix]
  rw [if_pos hpre]
  congr 1
  congr 1
  exact List.drop_left qs rest

theorem replaceAllL_of_not_contains (q : Char) (qs rep : List Char) :
    ∀ s : List Char, containsSubL (q :: qs) s = false → replaceAllL q qs rep s = s := by
  intro s
  induction s with
  | nil => intro _; rw [replaceAllL]
  | cons c tl ih =>
    intro h
    rw [containsSubL, Bool.or_eq_false_iff] at h
    rw [replaceAllL, if_neg (by simp [h.1]), ih h.2]

/-- Python-`replace` on a string whose only occurrence of the pattern is
its leading prefix: exactly the prefix-substitution the spec describes. -/
theorem strReplace_of_single_occurrence (mon strm p : String) (rest : List Char)
    (hne : mon ≠ "") (hp : p.data = mon.data ++ rest)
    (hrest : containsSubL mon.data rest = false) :
    strReplace p mon strm = ⟨strm.data ++ rest⟩ := by
  obtain ⟨q, qs, hd⟩ : ∃ q qs, mon.data = q :: qs := by
    cases hmon : mon.data with
    | nil => exact absurd (String.ext hmon) hne
    | cons q qs => exact ⟨q, qs, rfl⟩
  rw [hd] at hp hrest
  rw [strReplace, hd]
  rw [hp]
  show (⟨replaceAllL q qs strm.data (q :: qs ++ rest)⟩ : String) = ⟨strm.data ++ rest⟩
  rw [List.cons_append, replaceAllL_cons_self, replaceAllL_of_not_contains q qs _ rest hrest]

/-! ## C2 — path mapping -/

/-- **C2, counterexample.**  The claim states that only the leading
`mon_path` prefix of the event path is rewritten and later occurrences of
`mon_path` are carried over unchanged.  `__handle_file` computes
`str(event_path).replace(mon_path, strm_dir)`, and Python `str.replace`
substitutes every occurrence: for `mon_path = "/mnt"`,
`strm_dir = "/ptr"` and event path `"/mnt/a/mnt/b.mkv"` (which starts
with `"/mnt"`), the computed target is `"/ptr/a/ptr/b.mkv"`, not the
claimed `"/ptr" ++ "/a/mnt/b.mkv"`. -/
theorem C2_prefix_substitution_counterexample :
    strStartsWith "/mnt/a/mnt/b.mkv" "/mnt" = true ∧
    strReplace "/mnt/a/mnt/b.mkv" "/mnt" "/ptr" = "/ptr/a/ptr/b.mkv" ∧
    strReplace "/mnt/a/mnt/b.mkv" "/mnt" "/ptr" ≠ "/ptr" ++ "/a/mnt/b.mkv" := by
  refine ⟨by decide, ?_, ?_⟩
  · simp [strReplace, replaceAllL, List.isPrefixOf]
  · intro h
    rw [show strReplace "/mnt/a/mnt/b.mkv" "/mnt" "/ptr" = "/ptr/a/ptr/b.mkv" by
      simp [strReplace, replaceAllL, List.isPrefixOf]] at h
    exact absurd h (by decide)

/-- **C2 (amended).**  The target path (and likewise the cloud path) is
the event path with *every* occurrence of the rule's `mon_path` replaced
by `strm_dir` (Python `str.replace`); in particular, whenever `mon_path`
occurs in the event path only as its leading prefix, the mapping is the
claimed prefix substitution: `strm_dir` concatenated with the event path
minus the `mon_path` prefix. -/
theorem C2_path_mapping_prefix_substitution (mon strm p : String) (rest : List Char)
    (hne : mon ≠ "") (hp : p.data = mon.data ++ rest)
    (hrest : containsSubL mon.data rest = false) :
    strReplace p mon strm = ⟨strm.data ++ rest⟩ :=
  strReplace_of_single_occurrence mon strm p rest hne hp hrest

/-- **C2, witness.**  The amended mapping law at a concrete rule. -/
theorem C2_path_mapping_witness :
    strReplace "/mnt/a/b.mkv" "/mnt" "/ptr" = "/ptr/a/b.mkv" := by
  have h := C2_path_mapping_prefix_substitution "/mnt" "/ptr" "/mnt/a/b.mkv" "/a/b.mkv".data
    (by decide) (by decide) (by decide)
  exact h

/-! ## C8 — format_content contract -/

/-- **C8.**  `__format_content` returns `None` exactly when the template
contains neither placeholder; with `{local_file}` present the local path
is substituted; otherwise with `{cloud_file}` present the cloud path is
substituted, percent-encoded when `uriencode` is set and
backslash-normalized when it is not. -/
theorem C8_format_content_contract (f l c : String) :
    (∀ u : Bool, (formatContent f l c u = none ↔
      (containsSub f "{local_file}" = false ∧ containsSub f "{cloud_file}" = false))) ∧
    (containsSub f "{local_file}" = true →
      ∀ u : Bool, formatContent f l c u = some (strReplace f "{local_file}" l)) ∧
    (containsSub f "{local_file}" = false → containsSub f "{cloud_file}" = true →
      formatContent f l c true = some (strReplace f "{cloud_file}" (urlQuote c)) ∧
      formatContent f l c false = some (strReplace f "{cloud_file}" (strReplace c "\\" "/"))) := by
  refine ⟨fun u => ?_, fun h1 u => ?_, fun h1 h2 => ?_⟩
  · constructor
    · intro h
      by_cases h1 : containsSub f "{local_file}" = true
      · simp [formatContent, h1] at h
      · by_cases h2 : containsSub f "{cloud_file}" = true
        · simp [formatContent, h1, h2] at h
        · exact ⟨by simpa using h1, by simpa using h2⟩
    · rintro ⟨h1, h2⟩
      simp [formatContent, h1, h2]
  · simp [formatContent, h1]
  · simp [formatContent, h1, h2]

/-- **C8, witness.**  The contract evaluated on concrete templates. -/
theorem C8_format_content_witness :
    formatContent "{cloud_file}" "/l" "a\\b" false = some "a/b" := by
  have h := (C8_format_content_contract "{cloud_file}" "/l" "a\\b").2.2 (by decide) (by decide)
  rw [h.2]
  simp [strReplace, replaceAllL, List.isPrefixOf]

/-! ## C10 — hard-coded server name -/

/-- **C10.**  `_get_server_name_cn` opens with an unconditional
`return "芙服"`, so every webhook event gets that fixed server label —
the result never depends on the event's `server_name` or json `Server.Name`
fields, and the fallback block after the `return` is unreachable (the
early return is `some` for every event, so `getServerNameCnDead` is never
consulted). -/
theorem C10_server_name_constant :
    ∀ ev : WEvent, getServerNameCn ev = "芙服" ∧ getServerNameCnFirst ev = some "芙服" :=
  fun _ => ⟨rfl, rfl⟩

/-! ## C9 — descendant pointer-root rule is *not* removed (code bug) -/

/-- **C9, failing input.**  Feed `init_plugin` the rule line
`"/a#/a/sub#/cloud#{cloud_file}"` (pointer root `/a/sub` is a descendant
of source root `/a`, `is_relative_to` confirms it) followed by a valid
rule.  The source stores every syntactically well-formed rule into
`_strm_dir_conf` / `_cloud_dir_conf` / `_format_conf` *before* running
the descendant check, and the check's `continue` ends an already-complete
loop body, so the offending rule stays in all active mappings — contrary
to the claim (and to the plugin's own warning log, which announces the
directory cannot be monitored).  Processing does continue with the
remaining valid rule. -/
theorem C9_descendant_rule_not_skipped :
    isRelativeTo "/a/sub" "/a" = true ∧
    dictGet (parseMonitorConfs "/a#/a/sub#/cloud#{cloud_file}\n/b#/ptr#/cloudb#{cloud_file}").strmDirConf "/a"
      = some "/a/sub" ∧
    dictGet (parseMonitorConfs "/a#/a/sub#/cloud#{cloud_file}\n/b#/ptr#/cloudb#{cloud_file}").cloudDirConf "/a"
      = some "/cloud" ∧
    dictGet (parseMonitorConfs "/a#/a/sub#/cloud#{cloud_file}\n/b#/ptr#/cloudb#{cloud_file}").formatConf "/a"
      = some "{cloud_file}" ∧
    dictGet (parseMonitorConfs "/a#/a/sub#/cloud#{cloud_file}\n/b#/ptr#/cloudb#{cloud_file}").strmDirConf "/b"
      = some "/ptr" := by
  refine ⟨by decide, ?_, ?_, ?_, ?_⟩ <;>
    simp [parseMonitorConfs, parseMonitorLine, countSub, countSubL, List.isPrefixOf,
      strSplit, splitOnCharL, strStartsWith, dictGet, dictInsert]

/-! ## C7 — debounce reset -/

/-- **C7.**  A refresh signal arriving before the pending delay has
elapsed replaces the timer: after events at `t = 0` and `t = delay - 1`,
the armed timer fires at `2*delay - 1` and at no earlier instant, while
the pending payload accumulates across the reset (`[i1, i2]` after the
two arrivals). -/
theorem C7_debounce_reset (delay : Nat) (hd : 1 ≤ delay) (i1 i2 : RefreshMediaItem) :
    (refreshStep delay (refreshStep delay ⟨[], none⟩ 0 i1) (delay - 1) i2).pending = [i1, i2] ∧
    (refreshStep delay (refreshStep delay ⟨[], none⟩ 0 i1) (delay - 1) i2).timerAt
      = some (2 * delay - 1) ∧
    (∀ t, t < 2 * delay - 1 →
      ¬ firesAt (refreshStep delay (refreshStep delay ⟨[], none⟩ 0 i1) (delay - 1) i2) t) := by
  refine ⟨rfl, ?_, ?_⟩
  · simp only [refreshStep]
    congr 1
    omega
  · intro t ht hfire
    simp only [firesAt, refreshStep, Option.some.injEq] at hfire
    omega

/-- **C7, witness.**  The reset law at `delay = 30`. -/
theorem C7_debounce_reset_witness :
    (refreshStep 30 (refreshStep 30 ⟨[], none⟩ 0 ⟨"t", "y", "m", "c", "/p"⟩) 29
        ⟨"t", "y", "m", "c", "/q"⟩).pending
      = [⟨"t", "y", "m", "c", "/p"⟩, ⟨"t", "y", "m", "c", "/q"⟩] ∧
    (refreshStep 30 (refreshStep 30 ⟨[], none⟩ 0 ⟨"t", "y", "m", "c", "/p"⟩) 29
        ⟨"t", "y", "m", "c", "/q"⟩).timerAt = some 59 := by
  have h := C7_debounce_reset 30 (by decide) ⟨"t", "y", "m", "c", "/p"⟩ ⟨"t", "y", "m", "c", "/q"⟩
  exact ⟨h.1, h.2.1⟩

/-! ## Filesystem lemmas and C1 / C4 -/

theorem fsHas_fsWrite_self (fs : FS) (p c : String) : fsHas (fsWrite fs p c) p = true := by
  induction fs with
  | nil => simp [fsWrite, dictInsert, fsHas]
  | cons kv tl ih =>
    by_cases h : kv.1 = p
    · simp [fsWrite, dictInsert, fsHas, h]
    · simpa [fsWrite, dictInsert, fsHas, h] using ih

theorem fsGet_fsWrite_self (fs : FS) (p c : String) : fsGet (fsWrite fs p c) p = some c := by
  induction fs with
  | nil => simp [fsWrite, dictInsert, fsGet, dictGet]
  | cons kv tl ih =>
    by_cases h : kv.1 = p
    · simp [fsWrite, dictInsert, fsGet, dictGet, h]
    · simpa [fsWrite, dictInsert, fsGet, dictGet, List.find?, h] using ih

/-- The skip branch of `__create_strm_file`: an existing pointer with
overwrite off is a full no-op returning `False`. -/
theorem createStrmFile_skip (cfg : StrmConf) (st : SyncState) (f : String) (x : Option String)
    (hh : fsHas st.fs (ospathJoin (pathParent f) (pathStem (pathName f) ++ ".strm")) = true)
    (hc : cfg.cover = false) :
    createStrmFile cfg st f x = (false, st) := by
  simp [createStrmFile, hh, hc]

/-- The create branch of `__create_strm_file`: no existing pointer means
the call reports `True` and writes the replaced content at the pointer
path (whatever the notification-related flags do to the other fields). -/
theorem createStrmFile_create (cfg : StrmConf) (st : SyncState) (f c : String)
    (hh : fsHas st.fs (ospathJoin (pathParent f) (pathStem (pathName f) ++ ".strm")) = false) :
    (createStrmFile cfg st f (some c)).1 = true ∧
    (createStrmFile cfg st f (some c)).2.fs
      = fsWrite st.fs (ospathJoin (pathParent f) (pathStem (pathName f) ++ ".strm"))
          (applyPathReplacements cfg.pathReplacements c) := by
  simp only [createStrmFile, hh, Bool.false_and, Bool.false_eq_true, if_false]
  constructor
  · trivial
  · split <;> split <;> split <;> simp

/-- **C1.**  Pointer-write idempotence of `__create_strm_file`: with
overwrite (`_cover`) disabled and no pointer file yet on disk, a first
call creates the `.strm` file (with the configured path replacements
applied to the content) and returns `True`; an immediately repeated call
with identical inputs returns `False` and leaves the entire state — in
particular the on-disk content — unchanged. -/
theorem C1_pointer_write_idempotent (cfg : StrmConf) (st : SyncState) (f c : String)
    (hcover : cfg.cover = false)
    (habsent : fsHas st.fs (ospathJoin (pathParent f) (pathStem (pathName f) ++ ".strm")) = false) :
    (createStrmFile cfg st f (some c)).1 = true ∧
    fsGet (createStrmFile cfg st f (some c)).2.fs
        (ospathJoin (pathParent f) (pathStem (pathName f) ++ ".strm"))
      = some (applyPathReplacements cfg.pathReplacements c) ∧
    createStrmFile cfg (createStrmFile cfg st f (some c)).2 f (some c)
      = (false, (createStrmFile cfg st f (some c)).2) := by
  obtain ⟨h1, h2⟩ := createStrmFile_create cfg st f c habsent
  refine ⟨h1, ?_, ?_⟩
  · rw [h2, fsGet_fsWrite_self]
  · exact createStrmFile_skip cfg _ f (some c) (by rw [h2, fsHas_fsWrite_self]) hcover

/-- **C1, witness.**  The idempotence law run on a concrete rule:
creation then skip at `/ptr/ShowX/S01E01.mkv`. -/
theorem C1_pointer_write_idempotent_witness :
    ((createStrmFile
        ⟨false, false, [("/cloud", "http://h/cloud")], none, false, true, true,
          ".mp4,.mkv", false, none, false, [".mkv", ".mp4"]⟩
        ⟨[], [], [], []⟩ "/ptr/ShowX/S01E01.mkv" (some "/cloud/ShowX/S01E01.mkv")).1 = true) ∧
    fsGet (createStrmFile
        ⟨false, false, [("/cloud", "http://h/cloud")], none, false, true, true,
          ".mp4,.mkv", false, none, false, [".mkv", ".mp4"]⟩
        ⟨[], [], [], []⟩ "/ptr/ShowX/S01E01.mkv" (some "/cloud/ShowX/S01E01.mkv")).2.fs
        "/ptr/ShowX/S01E01.strm"
      = some "http://h/cloud/ShowX/S01E01.mkv" := by
  have h := C1_pointer_write_idempotent
    ⟨false, false, [("/cloud", "http://h/cloud")], none, false, true, true,
      ".mp4,.mkv", false, none, false, [".mkv", ".mp4"]⟩
    ⟨[], [], [], []⟩ "/ptr/ShowX/S01E01.mkv" "/cloud/ShowX/S01E01.mkv" rfl (by decide)
  refine ⟨h.1, ?_⟩
  have h2 := h.2.1
  rw [show ospathJoin (pathParent "/ptr/ShowX/S01E01.mkv")
      (pathStem (pathName "/ptr/ShowX/S01E01.mkv") ++ ".strm") = "/ptr/ShowX/S01E01.strm" from by decide] at h2
  rw [h2]
  simp only [applyPathReplacements, strReplace, replaceAllL, List.isPrefixOf, List.foldl]
  simp [strReplace, replaceAllL, List.isPrefixOf]
  decide

/-- **C4.**  Skipped frame property of `__handle_file`: when the event
path carries a media extension, the mapped `.strm` file already exists
and overwrite is off, re-handling the same source file is a complete
no-op — no file written, no refresh-queue entry, no notification metadata
collected, no task push, no sidecar copy (the sidecar cascade is guarded
by `if created:` and `__create_strm_file` returned `False` before any of
its side effects). -/
theorem C4_skipped_frame (cfg : StrmConf) (maps : RuleMaps) (st : SyncState)
    (event_path mon cloud_dir strm_dir fmt : String)
    (h1 : dictGet maps.cloudDirConf mon = some cloud_dir)
    (h2 : dictGet maps.strmDirConf mon = some strm_dir)
    (h3 : dictGet maps.formatConf mon = some fmt)
    (hmedia : strLower (pathSuffix event_path) ∈ (strSplit cfg.rmtMediaext ',').map strTrim)
    (hcover : cfg.cover = false)
    (hstrm : fsHas st.fs
        (ospathJoin (pathParent (strReplace event_path mon strm_dir))
          (pathStem (pathName (strReplace event_path mon strm_dir)) ++ ".strm")) = true) :
    handleFile cfg maps st event_path mon = st := by
  rw [handleFile]
  by_cases hex : fsHas st.fs event_path
  · rw [if_neg (by simp [hex])]
    rw [h1, h2, h3]
    have hcreate := createStrmFile_skip cfg st (strReplace event_path mon strm_dir)
      (formatContent fmt event_path (strReplace event_path mon cloud_dir) cfg.uriencode)
      hstrm hcover
    simp only [hmedia, if_pos, hcreate, decide_eq_true_eq]
    simp
  · rw [if_pos (by simp [hex])]

/-- **C4, witness.**  Re-handling `/mnt/S01E01.mkv` when
`/ptr/S01E01.strm` already exists changes nothing. -/
theorem C4_skipped_frame_witness :
    handleFile
      ⟨false, false, [], none, true, true, true, ".mp4,.mkv", true, some ".nfo", true, [".mkv"]⟩
      ⟨[("/mnt", "/ptr")], [("/mnt", "/cloud")], [("/mnt", "{cloud_file}")], []⟩
      ⟨[("/mnt/S01E01.mkv", "x"), ("/ptr/S01E01.strm", "c")], [], [], []⟩
      "/mnt/S01E01.mkv" "/mnt"
      = ⟨[("/mnt/S01E01.mkv", "x"), ("/ptr/S01E01.strm", "c")], [], [], []⟩ := by
  apply C4_skipped_frame _ _ _ _ _ "/cloud" "/ptr" "{cloud_file}"
  · decide
  · decide
  · decide
  · decide
  · rfl
  · rw [show strReplace "/mnt/S01E01.mkv" "/mnt" "/ptr" = "/ptr/S01E01.mkv" from by
      simp [strReplace, replaceAllL, List.isPrefixOf]]
    decide

/-! ## C3 — refresh coalescing -/

theorem mem_foldl_addToRefreshQueue (l : List String) :
    ∀ (q0 : List String) (d : String),
      d ∈ l.foldl addToRefreshQueue q0 ↔ d ∈ q0 ∨ ∃ f ∈ l, pathParent f = d := by
  induction l with
  | nil => simp
  | cons f tl ih =>
    intro q0 d
    rw [List.foldl_cons, ih]
    simp only [addToRefreshQueue, List.mem_insert_iff, List.mem_cons]
    constructor
    · rintro ((h | h) | ⟨g, hg, hp⟩)
      · exact Or.inr ⟨f, Or.inl rfl, h.symm⟩
      · exact Or.inl h
      · exact Or.inr ⟨g, Or.inr hg, hp⟩
    · rintro (h | ⟨g, (rfl | hg), hp⟩)
      · exact Or.inl (Or.inr h)
      · exact Or.inl (Or.inl hp.symm)
      · exact Or.inr ⟨g, hg, hp⟩

theorem nodup_foldl_addToRefreshQueue (l : List String) :
    ∀ q0 : List String, q0.Nodup → (l.foldl addToRefreshQueue q0).Nodup := by
  induction l with
  | nil => exact fun q0 h => h
  | cons f tl ih =>
    intro q0 h
    exact ih _ (List.Nodup.insert h)

/-- **C3.**  Refresh coalescing.  Lkwang88: after any batch of
`__add_to_refresh_queue` calls at least one of which names (the parent
directory) `d`, the flush snapshot contains `d` exactly once — the
pending collection is a Python `set`, so each directory appears at most
once per flush — and the flush leaves the cleared queue behind (the
snapshot-and-clear is one critical section under `_refresh_lock`, the
same lock producers take, modelled as a single atomic step).
mediaserverrefresh88: `_flush_queue` deduplicates the pending target
paths through `list(set(...))`, so each target directory of the batch is
pushed exactly once, and the pending list is left empty. -/
theorem C3_refresh_coalescing :
    (∀ (q0 l : List String) (d : String), q0.Nodup →
      (∃ f ∈ l, pathParent f = d) →
      ((processRefreshQueue (l.foldl addToRefreshQueue q0)).1.count d = 1 ∧
       (processRefreshQueue (l.foldl addToRefreshQueue q0)).2 = [])) ∧
    (∀ (pending : List RefreshMediaItem) (d : String),
      (∃ i ∈ pending, i.targetPath = d) →
      ((flushQueue88 pending).1.count d = 1 ∧ (flushQueue88 pending).2 = [])) := by
  constructor
  · intro q0 l d hnodup hex
    have hmem : d ∈ l.foldl addToRefreshQueue q0 :=
      (mem_foldl_addToRefreshQueue l q0 d).2 (Or.inr hex)
    have hne : l.foldl addToRefreshQueue q0 ≠ [] := List.ne_nil_of_mem hmem
    rw [processRefreshQueue, if_neg hne]
    exact ⟨List.count_eq_one_of_mem (nodup_foldl_addToRefreshQueue l q0 hnodup) hmem, rfl⟩
  · intro pending d hex
    obtain ⟨i, hi, hip⟩ := hex
    have hne : pending ≠ [] := List.ne_nil_of_mem hi
    rw [flushQueue88, if_neg hne]
    have hmem : d ∈ (pending.map (fun i => i.targetPath)).dedup := by
      rw [List.mem_dedup]
      exact List.mem_map.2 ⟨i, hi, hip⟩
    exact ⟨List.count_eq_one_of_mem (List.nodup_dedup _) hmem, rfl⟩

/-- **C3, witness.**  Two pointer files in the same show directory give a
single refresh call for that directory and an empty queue afterwards. -/
theorem C3_refresh_coalescing_witness :
    (processRefreshQueue
        (["/ptr/ShowX/S01E01.strm", "/ptr/ShowX/S01E02.strm"].foldl addToRefreshQueue [])).1.count
      "/ptr/ShowX" = 1 ∧
    (processRefreshQueue
        (["/ptr/ShowX/S01E01.strm", "/ptr/ShowX/S01E02.strm"].foldl addToRefreshQueue [])).2 = [] := by
  exact C3_refresh_coalescing.1 [] ["/ptr/ShowX/S01E01.strm", "/ptr/ShowX/S01E02.strm"] "/ptr/ShowX"
    (by decide) ⟨"/ptr/ShowX/S01E01.strm", by decide, by decide⟩

/-! ## C5 — duplicate-stop suppression -/

theorem cacheLookup_addKeyCache_self (now : Nat) (c : KeyCache) (k : String) :
    cacheLookup (addKeyCache now c k) k = some (now + defaultExpirationTime) := by
  induction c with
  | nil => simp [addKeyCache, cacheLookup]
  | cons kv tl ih =>
    obtain ⟨k', v⟩ := kv
    by_cases h : k' = k
    · simp [addKeyCache, cacheLookup, h]
    · simpa [addKeyCache, cacheLookup, List.find?, h] using ih

theorem mem_keys_addKeyCache (now : Nat) (k x : String) :
    ∀ c : KeyCache, x ∈ (addKeyCache now c k).map Prod.fst → x ∈ c.map Prod.fst ∨ x = k := by
  intro c
  induction c with
  | nil =>
    intro h
    simp only [addKeyCache, List.map_cons, List.map_nil, List.mem_singleton] at h
    exact Or.inr h
  | cons kv tl ih =>
    obtain ⟨k', v⟩ := kv
    intro h
    by_cases hk : k' = k
    · subst hk
      simp only [addKeyCache, eq_self_iff_true, if_true, List.map_cons, List.mem_cons] at h
      rcases h with h | h
      · exact Or.inr h
      · exact Or.inl (List.mem_cons_of_mem _ h)
    · simp only [addKeyCache, if_neg hk, List.map_cons, List.mem_cons] at h
      rcases h with h | h
      · exact Or.inl (by simp [h])
      · rcases ih h with h2 | h2
        · exact Or.inl (List.mem_cons_of_mem _ h2)
        · exact Or.inr h2

theorem keys_addKeyCache_nodup (now : Nat) (c : KeyCache) (k : String)
    (h : (c.map Prod.fst).Nodup) : ((addKeyCache now c k).map Prod.fst).Nodup := by
  induction c with
  | nil => simp [addKeyCache]
  | cons kv tl ih =>
    obtain ⟨k', v⟩ := kv
    simp only [List.map_cons, List.nodup_cons] at h
    by_cases hk : k' = k
    · subst hk
      simpa [addKeyCache, List.nodup_cons] using h
    · have htl := ih h.2
      simp only [addKeyCache, if_neg hk, List.map_cons, List.nodup_cons]
      refine ⟨?_, htl⟩
      intro hmem
      rcases mem_keys_addKeyCache now k k' tl hmem with h3 | h3
      · exact h.1 h3
      · exact hk h3

theorem mem_keys_addKeyCache_self (now : Nat) (c : KeyCache) (k : String) :
    k ∈ (addKeyCache now c k).map Prod.fst := by
  induction c with
  | nil => simp [addKeyCache]
  | cons kv tl ih =>
    obtain ⟨k', v⟩ := kv
    by_cases h : k' = k
    · simp [addKeyCache, h]
    · simp only [addKeyCache, if_neg h, List.map_cons, List.mem_cons]
      exact Or.inr ih

theorem addKeyCache_expiry_future (now : Nat) (c : KeyCache) (k : String)
    (h : ∀ kv ∈ c, now < kv.2) : ∀ kv ∈ addKeyCache now c k, now < kv.2 := by
  induction c with
  | nil =>
    intro kv hkv
    simp only [addKeyCache, List.mem_singleton] at hkv
    subst hkv
    simp [defaultExpirationTime]
  | cons kv0 tl ih =>
    obtain ⟨k', v⟩ := kv0
    intro kv hkv
    by_cases hk : k' = k
    · simp only [addKeyCache, if_pos hk, List.mem_cons] at hkv
      rcases hkv with rfl | hkv
      · simp [defaultExpirationTime]
      · exact h kv (List.mem_cons_of_mem _ hkv)
    · simp only [addKeyCache, if_neg hk, List.mem_cons] at hkv
      rcases hkv with rfl | hkv
      · exact h (k', v) (List.mem_cons_self _ _)
      · exact ih (fun x hx => h x (List.mem_cons_of_mem _ hx)) kv hkv

theorem cleanExpiredCache_expiry_future (now : Nat) (c : KeyCache) :
    ∀ kv ∈ cleanExpiredCache now c, now < kv.2 := by
  intro kv hkv
  have := List.of_mem_filter hkv
  simpa using this

theorem cleanExpiredCache_keys_nodup (now : Nat) (c : KeyCache)
    (h : (c.map Prod.fst).Nodup) : ((cleanExpiredCache now c).map Prod.fst).Nodup := by
  have hsub : List.Sublist ((cleanExpiredCache now c).map Prod.fst) (c.map Prod.fst) :=
    List.Sublist.map Prod.fst (List.filter_sublist c)
  exact h.sublist hsub

/-- **C5.**  Duplicate-stop suppression in `send`: an enabled, allowed
"stop"-class event whose dedup key `K = item_id-client-user_name-event`
is still cached (after the lazy sweep of expired entries that precedes
the check) is dropped — `send` returns before any formatter or dispatch
route — while `_add_key_cache` refreshes `K` to expire 600 seconds from
now.  The refresh replaces the dict entry in place, so `K` stays unique
in the cache, and after the sweep every surviving entry's expiry is in
the future. -/
theorem C5_duplicate_stop_suppressed (cfg : WConfig) (ev : WEvent) (now : Nat) (cache : KeyCache)
    (hen : cfg.enabled = true)
    (hne : ev.event ≠ "")
    (hms : cfg.mediaservers ≠ [])
    (hsel : ev.serverName ∈ cfg.mediaservers)
    (htype : ev.event ∈ cfg.types.flatMap (fun t => strSplit t '|'))
    (hstop : containsSub (strLower ev.event) "stop" = true)
    (hkey : (cleanExpiredCache now cache).any (fun kv => kv.1 = dedupKey ev) = true)
    (hnodup : (cache.map Prod.fst).Nodup) :
    send cfg ev now cache
      = (.droppedDupStop, addKeyCache now (cleanExpiredCache now cache) (dedupKey ev)) ∧
    cacheLookup (send cfg ev now cache).2 (dedupKey ev) = some (now + defaultExpirationTime) ∧
    ((send cfg ev now cache).2.map Prod.fst).count (dedupKey ev) = 1 ∧
    (∀ kv ∈ (send cfg ev now cache).2, now < kv.2) := by
  have hsend : send cfg ev now cache
      = (.droppedDupStop, addKeyCache now (cleanExpiredCache now cache) (dedupKey ev)) := by
    simp [send, hen, hne, hms, hsel, htype, hstop, hkey]
  refine ⟨hsend, ?_, ?_, ?_⟩
  · rw [hsend]
    exact cacheLookup_addKeyCache_self now _ (dedupKey ev)
  · rw [hsend]
    exact List.count_eq_one_of_mem
      (keys_addKeyCache_nodup now _ (dedupKey ev) (cleanExpiredCache_keys_nodup now cache hnodup))
      (mem_keys_addKeyCache_self now _ (dedupKey ev))
  · rw [hsend]
    exact addKeyCache_expiry_future now _ (dedupKey ev) (cleanExpiredCache_expiry_future now cache)

/-- **C5, witness.**  A second `playback.stop` for the same item, client
and user within the TTL is dropped and its cache entry refreshed. -/
theorem C5_duplicate_stop_suppressed_witness :
    send ⟨true, ["emby"], ["playback.stop|playback.pause"], true⟩
        ⟨"playback.stop", "emby", "42", "web", "bob", "MOV", false, none, none, none, none,
          none, none, none, none⟩
        500 [("42-web-bob-playback.stop", 1000)]
      = (.droppedDupStop, [("42-web-bob-playback.stop", 1100)]) := by
  have h := (C5_duplicate_stop_suppressed
      ⟨true, ["emby"], ["playback.stop|playback.pause"], true⟩
      ⟨"playback.stop", "emby", "42", "web", "bob", "MOV", false, none, none, none, none,
        none, none, none, none⟩
      500 [("42-web-bob-playback.stop", 1000)]
      rfl (by decide) (by decide) (by decide) (by decide) (by decide) (by decide) (by decide)).1
  rw [h]
  decide

/-! ## C6 — episode-range merging -/

theorem insertEp_map_fst_mem (s e : Int) :
    ∀ (m : List (Int × List Int)) (s' : Int),
      s' ∈ (insertEp m s e).map Prod.fst ↔ s' ∈ m.map Prod.fst ∨ s' = s := by
  intro m
  induction m with
  | nil => intro s'; simp [insertEp]
  | cons kv tl ih =>
    obtain ⟨k, v⟩ := kv
    intro s'
    by_cases hk : k = s
    · subst hk
      simp only [insertEp, eq_self_iff_true, if_true, List.map_cons, List.mem_cons]
      constructor
      · rintro (h | h)
        · exact Or.inl (Or.inl h)
        · exact Or.inl (Or.inr h)
      · rintro ((h | h) | h)
        · exact Or.inl h
        · exact Or.inr h
        · exact Or.inl h
    · simp only [insertEp, if_neg hk, List.map_cons, List.mem_cons, ih]
      tauto

theorem lookupEps_insertEp (s e : Int) :
    ∀ (m : List (Int × List Int)) (s' : Int),
      lookupEps (insertEp m s e) s'
        = if s' = s then lookupEps m s' ++ [e] else lookupEps m s' := by
  intro m
  induction m with
  | nil =>
    intro s'
    by_cases h : s' = s
    · simp [insertEp, lookupEps, h]
    · have h' : ¬ s = s' := fun hh => h hh.symm
      simp [insertEp, lookupEps, h, h']
  | cons kv tl ih =>
    obtain ⟨k, v⟩ := kv
    intro s'
    by_cases hk : k = s
    · subst hk
      by_cases hs : s' = k
      · subst hs
        simp [insertEp, lookupEps]
      · have h' : ¬ k = s' := fun hh => hs hh.symm
        simp [insertEp, lookupEps, hs, h']
    · by_cases hs : k = s'
      · subst hs
        have h' : ¬ k = s := hk
        simp [insertEp, lookupEps, h', hk]
      · simp only [insertEp, if_neg hk, lookupEps, if_neg hs, ih]

theorem buildFold_fst_mem (ps : List (Int × Int)) :
    ∀ (m : List (Int × List Int)) (s' : Int),
      s' ∈ ((ps.foldl (fun m p => insertEp m p.1 p.2) m).map Prod.fst) ↔
        s' ∈ m.map Prod.fst ∨ s' ∈ ps.map Prod.fst := by
  induction ps with
  | nil => intro m s'; simp
  | cons p tl ih =>
    intro m s'
    rw [List.foldl_cons, ih, insertEp_map_fst_mem]
    simp only [List.map_cons, List.mem_cons]
    tauto

theorem buildFold_eps_mem (ps : List (Int × Int)) :
    ∀ (m : List (Int × List Int)) (s' e : Int),
      e ∈ lookupEps (ps.foldl (fun m p => insertEp m p.1 p.2) m) s' ↔
        e ∈ lookupEps m s' ∨ (s', e) ∈ ps := by
  induction ps with
  | nil => intro m s' e; simp
  | cons p tl ih =>
    intro m s' e
    rw [List.foldl_cons, ih, lookupEps_insertEp]
    by_cases h : s' = p.1
    · subst h
      simp only [eq_self_iff_true, if_true, List.mem_append, List.mem_singleton, List.mem_cons,
        List.not_mem_nil, or_false]
      constructor
      · rintro ((h | h) | h)
        · exact Or.inl h
        · exact Or.inr (Or.inl (by rw [h, Prod.mk.eta]))
        · exact Or.inr (Or.inr h)
      · rintro (h | h | h)
        · exact Or.inl (Or.inl h)
        · exact Or.inl (Or.inr (congrArg Prod.snd h))
        · exact Or.inr h
    · simp only [if_neg h, List.mem_cons]
      constructor
      · rintro (h2 | h2)
        · exact Or.inl h2
        · exact Or.inr (Or.inr h2)
      · rintro (h2 | h2 | h2)
        · exact Or.inl h2
        · exact absurd (congrArg Prod.fst h2) h
        · exact Or.inr h2

theorem sortedDistinct_congr (l l' : List Int) (h : ∀ x, x ∈ l ↔ x ∈ l') :
    sortedDistinct l = sortedDistinct l' := by
  have hperm : List.Perm l.dedup l'.dedup := by
    apply List.perm_of_nodup_nodup_toFinset_eq (List.nodup_dedup l) (List.nodup_dedup l')
    ext x
    simp [List.mem_toFinset, List.mem_dedup, h x]
  exact List.eq_of_perm_of_sorted
    (((List.perm_insertionSort _ _).trans hperm).trans (List.perm_insertionSort _ _).symm)
    (List.sorted_insertionSort _ _) (List.sorted_insertionSort _ _)

/-- **C6.**  `_merge_continuous_episodes` depends only on the *set* of
extracted numeric `(season, episode)` pairs — duplicates and arrival
order never change the result, because each season's episode list is
passed through `sorted(list(set(...)))` and the seasons are iterated in
ascending numeric order — and on season 1 with episode set
`{1,2,3,5,7,8}` it compresses the maximal consecutive runs into
`"S01 E01-E03 E05 E07-E08"`. -/
theorem C6_episode_merge :
    (∀ evs evs' : List WEvent,
      (∀ p, p ∈ evs.filterMap extractPair ↔ p ∈ evs'.filterMap extractPair) →
      mergeContinuousEpisodes evs = mergeContinuousEpisodes evs') ∧
    mergeContinuousEpisodes
        [sampleEpisodeEvent 1 1, sampleEpisodeEvent 1 2, sampleEpisodeEvent 1 3,
          sampleEpisodeEvent 1 5, sampleEpisodeEvent 1 7, sampleEpisodeEvent 1 8]
      = "S01 E01-E03 E05 E07-E08" := by
  constructor
  · intro evs evs' h
    rw [mergeContinuousEpisodes, mergeContinuousEpisodes]
    have hkeys :
        sortedDistinct ((buildSeasonMap (evs.filterMap extractPair)).map Prod.fst)
          = sortedDistinct ((buildSeasonMap (evs'.filterMap extractPair)).map Prod.fst) := by
      apply sortedDistinct_congr
      intro s
      rw [buildSeasonMap, buildSeasonMap, buildFold_fst_mem, buildFold_fst_mem]
      simp only [List.map_nil, List.not_mem_nil, false_or]
      constructor
      · intro hs
        obtain ⟨p, hp, hps⟩ := List.mem_map.1 hs
        exact List.mem_map.2 ⟨p, (h p).1 hp, hps⟩
      · intro hs
        obtain ⟨p, hp, hps⟩ := List.mem_map.1 hs
        exact List.mem_map.2 ⟨p, (h p).2 hp, hps⟩
    have heps : ∀ s : Int,
        sortedDistinct (lookupEps (buildSeasonMap (evs.filterMap extractPair)) s)
          = sortedDistinct (lookupEps (buildSeasonMap (evs'.filterMap extractPair)) s) := by
      intro s
      apply sortedDistinct_congr
      intro e
      rw [buildSeasonMap, buildSeasonMap, buildFold_eps_mem, buildFold_eps_mem]
      simp only [lookupEps, List.not_mem_nil, false_or]
      exact h (s, e)
    rw [hkeys]
    congr 1
    apply List.filterMap_congr
    intro s _
    rw [heps s]
  · decide

/-- **C6, witness.**  A shuffled buffer with a duplicate episode merges
to the same string as the ordered duplicate-free buffer. -/
theorem C6_episode_merge_witness :
    mergeContinuousEpisodes
        [sampleEpisodeEvent 1 8, sampleEpisodeEvent 1 2, sampleEpisodeEvent 1 5,
          sampleEpisodeEvent 1 3, sampleEpisodeEvent 1 1, sampleEpisodeEvent 1 7,
          sampleEpisodeEvent 1 3]
      = "S01 E01-E03 E05 E07-E08" := by
  have h := C6_episode_merge.1
    [sampleEpisodeEvent 1 8, sampleEpisodeEvent 1 2, sampleEpisodeEvent 1 5,
      sampleEpisodeEvent 1 3, sampleEpisodeEvent 1 1, sampleEpisodeEvent 1 7,
      sampleEpisodeEvent 1 3]
    [sampleEpisodeEvent 1 1, sampleEpisodeEvent 1 2, sampleEpisodeEvent 1 3,
      sampleEpisodeEvent 1 5, sampleEpisodeEvent 1 7, sampleEpisodeEvent 1 8]
    (by
      intro p
      rw [show List.filterMap extractPair
          [sampleEpisodeEvent 1 8, sampleEpisodeEvent 1 2, sampleEpisodeEvent 1 5,
            sampleEpisodeEvent 1 3, sampleEpisodeEvent 1 1, sampleEpisodeEvent 1 7,
            sampleEpisodeEvent 1 3]
          = [(1, 8), (1, 2), (1, 5), (1, 3), (1, 1), (1, 7), (1, 3)] from by decide]
      rw [show List.filterMap extractPair
          [sampleEpisodeEvent 1 1, sampleEpisodeEvent 1 2, sampleEpisodeEvent 1 3,
            sampleEpisodeEvent 1 5, sampleEpisodeEvent 1 7, sampleEpisodeEvent 1 8]
          = [(1, 1), (1, 2), (1, 3), (1, 5), (1, 7), (1, 8)] from by decide]
      simp only [List.mem_cons, List.not_mem_nil, or_false]
      tauto)
  rw [h]
  exact C6_episode_merge.2

end MPPlugins
